import Mathlib

set_option maxRecDepth 8000

/-!
Verification of the MoleculeML transfer-learning pipeline (`src/main.ipynb`).

The notebook builds a fingerprint encoder (RDKit ECFP + MACCS keys), a joint
autoencoder+predictor representation learner (Keras), a frozen-encoder feature
extractor, and a two-candidate regressor selector (linear regression vs
XGBoost, compared by held-out RMSE).  This file gives a shallow embedding of
those components over `ℚ`/`ℝ` and proves (or refutes) the specification's
claims about them.  External library primitives (RDKit parsing and feature
hashing, the learned weight matrices, the fitted regressors) are taken as
function parameters; everything the notebook itself computes is embedded
concretely.
-/

namespace MoleculeML

/-! ## Fingerprint encoder (`smiles_to_fp`, `convert_smiles_to_fingerprints`)

`smiles_to_fp` calls `Chem.MolFromSmiles`, which returns `None` on a
malformed SMILES string; the subsequent `AllChem.GetMorganFingerprintAsBitVect`
call on `None` raises, so the function never returns a vector for a malformed
descriptor.  We model the parse as `parse : String → Option Mol` and the
failure as `Except.error .malformedInput`. -/

/-- Errors surfaced by the fingerprinting stage.  A malformed SMILES string
makes the RDKit fingerprint call raise rather than return a vector. -/
inductive FpError : Type where
  | malformedInput : FpError
deriving DecidableEq

/-- Morgan/ECFP circular fingerprint as a bit vector: the molecule's (abstract)
hashed circular substructure features, taken modulo `nBits`, set the bits of a
vector of length `nBits` (this is `AllChem.GetMorganFingerprintAsBitVect`). -/
def morganFingerprintBits {Mol : Type} (features : Mol → Nat → List Nat)
    (radius nBits : Nat) (mol : Mol) : List Nat :=
  (List.range nBits).map
    (fun i => if (features mol radius).any (fun f => f % nBits == i) then 1 else 0)

/-- MACCS substructure keys as a 167-entry bit vector
(`MACCSkeys.GenMACCSKeys`). -/
def maccsKeysBits {Mol : Type} (keys : Mol → Nat → Bool) (mol : Mol) : List Nat :=
  (List.range 167).map (fun i => if keys mol i then 1 else 0)

/-- Embedding of `smiles_to_fp(smiles, radius=2, n_bits=2000)`: parse the
SMILES string, generate the ECFP bits and the MACCS key bits, and concatenate
ECFP first, MACCS second (`np.concatenate([arr_ecfp, arr_maccs])`).  An
unparseable descriptor makes the call fail. -/
def smiles_to_fp {Mol : Type} (parse : String → Option Mol)
    (features : Mol → Nat → List Nat) (keys : Mol → Nat → Bool)
    (smiles : String) (radius nBits : Nat) : Except FpError (List Nat) :=
  match parse smiles with
  | none => .error .malformedInput
  | some mol =>
      .ok (morganFingerprintBits features radius nBits mol ++ maccsKeysBits keys mol)

/-- Sequential traversal that aborts at the first failing element, the
behaviour of a Python list comprehension whose body can raise. -/
def mapExcept {α β ε : Type} (f : α → Except ε β) : List α → Except ε (List β)
  | [] => .ok []
  | a :: l =>
      match f a with
      | .error e => .error e
      | .ok b =>
          match mapExcept f l with
          | .error e => .error e
          | .ok bs => .ok (b :: bs)

/-- Embedding of `convert_smiles_to_fingerprints`: a Python list comprehension
`[smiles_to_fp(s) for s in smiles_array]`, which aborts the whole batch when
any element raises. -/
def convert_smiles_to_fingerprints {Mol : Type} (parse : String → Option Mol)
    (features : Mol → Nat → List Nat) (keys : Mol → Nat → Bool)
    (smilesArray : List String) : Except FpError (List (List Nat)) :=
  mapExcept (fun s => smiles_to_fp parse features keys s 2 2000) smilesArray

/-! ## RMSE scoring and model selection (`rmse`, `best_model`) -/

/-- Embedding of `sklearn.metrics.mean_squared_error` on two equal-length
vectors: the mean of the squared componentwise differences. -/
def mean_squared_error (x1 x2 : List ℚ) : ℚ :=
  (((x1.zip x2).map (fun t => (t.1 - t.2) ^ 2)).sum) / x1.length

/-- Embedding of the notebook's `rmse`: `np.sqrt(mean_squared_error(x1, x2))`. -/
noncomputable def rmse (x1 x2 : List ℚ) : ℝ :=
  Real.sqrt (mean_squared_error x1 x2)

/-- The two regressor candidates of the notebook. -/
inductive Regressor : Type where
  | lr : Regressor
  | xgb : Regressor
deriving DecidableEq

/-- Embedding of the notebook's selection cell:
`if lr_rmse < xgb_rmse: best_model = lr else: best_model = xgb`.
Stated over any linear order so it applies to the real-valued RMSE scores. -/
def best_model {α : Type} [LinearOrder α] (lr_rmse xgb_rmse : α) : Regressor :=
  if lr_rmse < xgb_rmse then .lr else .xgb

/-! ## Keras layers at inference time

The encoder/decoder/predictor are Keras `Dense`/`BatchNormalization`/
`LeakyReLU`/`Dropout` stacks.  At inference (`model.predict`) `Dropout` is the
identity and `BatchNormalization` is a fixed per-feature affine map (the
learned `gamma / sqrt(var + eps)` scale and the corresponding shift are folded
into one scale and one shift coefficient per feature).  `Dense(u)` is an
affine map given by a weight matrix with `u` rows and a bias of length `u`. -/

/-- Dot product of two rational vectors (truncating to the shorter). -/
def dotProduct (r x : List ℚ) : ℚ :=
  ((r.zip x).map (fun t => t.1 * t.2)).sum

/-- A Keras `Dense` layer's learned parameters: one weight row and one bias
entry per output unit. -/
structure DenseLayer : Type where
  W : List (List ℚ)
  b : List ℚ

/-- Applying a `Dense` layer: each output unit is its weight row dotted with
the input plus its bias.  The output length is the number of (row, bias)
pairs, i.e. the layer's unit count. -/
def denseApply (d : DenseLayer) (x : List ℚ) : List ℚ :=
  (d.W.zip d.b).map (fun rb => dotProduct rb.1 x + rb.2)

/-- Batch normalization (`BatchNormalization`) at inference: a fixed per-feature affine map. -/
def batchNormApply (scale shift : List ℚ) (x : List ℚ) : List ℚ :=
  (x.zip (scale.zip shift)).map (fun t => t.2.1 * t.1 + t.2.2)

/-- Leaky ReLU (`LeakyReLU(alpha)`): identity on non-negatives, slope `alpha` below zero. -/
def leakyReluApply (alpha : ℚ) (x : List ℚ) : List ℚ :=
  x.map (fun v => if v < 0 then alpha * v else v)

/-- Dropout (`Dropout`) at inference is the identity. -/
def dropoutApply (x : List ℚ) : List ℚ := x

/-- Softmax over an abstract strictly positive weight function `e` standing
for `exp`: normalize the pointwise weights to unit sum.  Keras `softmax`
is this with `e = Real.exp`. -/
def softmax (e : ℚ → ℚ) (x : List ℚ) : List ℚ :=
  (x.map e).map (fun t => t / (x.map e).sum)

/-- The learned parameters of `create_encoder`:
`Dense(2167) → BN → LeakyReLU(0.01) → Dropout → Dense(2500) → BN →
LeakyReLU(0.01) → Dropout → Dense(2167, linear)`. -/
structure EncoderWeights : Type where
  d1 : DenseLayer
  bn1scale : List ℚ
  bn1shift : List ℚ
  d2 : DenseLayer
  bn2scale : List ℚ
  bn2shift : List ℚ
  d3 : DenseLayer

/-- Shape discipline of `create_encoder(input_dim=2167)` with the hidden
width left as a parameter `hidden` (the notebook uses `hidden = 2500`):
the first `Dense` has 2167 units, the second `hidden` units, and the final
linear `Dense` has 2167 units. -/
def EncoderShaped (hidden : Nat) (w : EncoderWeights) : Prop :=
  w.d1.W.length = 2167 ∧ w.d1.b.length = 2167 ∧
  w.d2.W.length = hidden ∧ w.d2.b.length = hidden ∧
  w.d3.W.length = 2167 ∧ w.d3.b.length = 2167

/-- Forward pass of the `create_encoder` network at inference. -/
def encoderForward (w : EncoderWeights) (x : List ℚ) : List ℚ :=
  let h1 := dropoutApply (leakyReluApply (1 / 100)
    (batchNormApply w.bn1scale w.bn1shift (denseApply w.d1 x)))
  let h2 := dropoutApply (leakyReluApply (1 / 100)
    (batchNormApply w.bn2scale w.bn2shift (denseApply w.d2 h1)))
  denseApply w.d3 h2

/-- The learned parameters of `create_decoder`:
`Dense(2000) → BN → LeakyReLU(0.01) → Dropout → Dense(2167, softmax)`. -/
structure DecoderWeights : Type where
  d1 : DenseLayer
  bn1scale : List ℚ
  bn1shift : List ℚ
  d2 : DenseLayer

/-- Shape discipline of `create_decoder(input_dim=2167)`: the hidden `Dense`
has 2000 units and the softmax output `Dense` has 2167 units. -/
def DecoderShaped (w : DecoderWeights) : Prop :=
  w.d1.W.length = 2000 ∧ w.d1.b.length = 2000 ∧
  w.d2.W.length = 2167 ∧ w.d2.b.length = 2167

/-- Forward pass of the `create_decoder` network at inference, with the
positive weight function `e` standing for `exp` inside the final softmax. -/
def decoderForward (e : ℚ → ℚ) (w : DecoderWeights) (x : List ℚ) : List ℚ :=
  let h := dropoutApply (leakyReluApply (1 / 100)
    (batchNormApply w.bn1scale w.bn1shift (denseApply w.d1 x)))
  softmax e (denseApply w.d2 h)

/-! ## Feature extraction (`encoder.predict`) -/

/-- Embedding of `encoder.predict(batch)`: the frozen encoder applied to each
row of the batch independently, preserving order. -/
def extract (w : EncoderWeights) (fps : List (List ℚ)) : List (List ℚ) :=
  fps.map (encoderForward w)

/-! ## Early stopping (`EarlyStopping(monitor='val_predictor_rmse',
patience=20, restore_best_weights=True)`)

Keras semantics per epoch end: a strictly smaller monitored value than the
best seen so far records the new best value and a snapshot of the weights and
resets the patience counter; otherwise the counter increments, and once it
reaches the patience the run stops and (with `restore_best_weights=True`) the
best snapshot is restored. -/

/-- Callback state: best monitored value so far (none before any epoch), the
weight snapshot that achieved it, and the no-improvement counter. -/
structure ESState (W : Type) : Type where
  best : Option ℚ
  bestWeights : Option W
  wait : Nat
deriving DecidableEq

/-- Whether a monitored value strictly improves on the best seen so far
(any value improves on the initial infinity). -/
def esImproves (best : Option ℚ) (v : ℚ) : Bool :=
  match best with
  | none => true
  | some b => decide (v < b)

/-- Run the early-stopping state machine over the epoch history, a list of
(weights at epoch end, monitored validation error) pairs.  Returns the final
callback state, whether training stopped early, and how many epochs were
observed before termination. -/
def earlyStoppingRun {W : Type} (patience : Nat) :
    ESState W → List (W × ℚ) → ESState W × Bool × Nat
  | s, [] => (s, false, 0)
  | s, (w, v) :: rest =>
      if esImproves s.best v then
        let r := earlyStoppingRun patience ⟨some v, some w, 0⟩ rest
        (r.1, r.2.1, r.2.2 + 1)
      else if patience ≤ s.wait + 1 then
        (⟨s.best, s.bestWeights, s.wait + 1⟩, true, 1)
      else
        let r := earlyStoppingRun patience ⟨s.best, s.bestWeights, s.wait + 1⟩ rest
        (r.1, r.2.1, r.2.2 + 1)

/-- The weights held by the model after `model.fit` with the notebook's
callbacks: when early stopping fired, the restored best snapshot; otherwise
the last epoch's weights (`w0` if no epoch ran). -/
def modelFitWeights {W : Type} (patience : Nat) (w0 : W) (epochs : List (W × ℚ)) : W :=
  let r := earlyStoppingRun patience ⟨none, none, 0⟩ epochs
  match r.2.1, r.1.bestWeights with
  | true, some bw => bw
  | true, none => (epochs.map Prod.fst).getLastD w0
  | false, _ => (epochs.map Prod.fst).getLastD w0

/-! ## Regressor selector

The notebook splits the encoded training data with
`train_test_split(encoded_train_x, train_y, test_size=0.1, random_state=42)`,
fits `LinearRegression` and `XGBRegressor` on the fit part, scores both on the
held-out part with `rmse`, and keeps the better one with the `best_model`
branch.  The seeded shuffle inside `train_test_split` (numpy's MT19937 driven
by `random_state`) and the two library fitting procedures are deterministic
functions of their inputs; we take them as function parameters. -/

/-- Embedding of `sklearn.model_selection.train_test_split(X, y, test_size,
random_state)`: the seeded generator yields a permutation of the row indices;
the first `⌈test_frac · n⌉` permuted rows form the held-out subset and the
rest form the fit subset.  Returns `(x_fit, x_val, y_fit, y_val)`. -/
def train_test_split {F : Type} (shuffle : Nat → Nat → List Nat)
    (random_state : Nat) (nTest : Nat → Nat) (X : List F) (y : List ℚ) :
    List F × List F × List ℚ × List ℚ :=
  let idx := shuffle random_state X.length
  let testIdx := idx.take (nTest X.length)
  let fitIdx := idx.drop (nTest X.length)
  (fitIdx.filterMap (fun i => X.get? i), testIdx.filterMap (fun i => X.get? i),
   fitIdx.filterMap (fun i => y.get? i), testIdx.filterMap (fun i => y.get? i))

/-- The auditable outcome of one regressor-selector run: the split, both
held-out RMSE scores, and the selected model. -/
structure SelectorRun (M : Type) : Type where
  x_fit : List (List ℚ)
  x_val : List (List ℚ)
  y_fit : List ℚ
  y_val : List ℚ
  lr_rmse : ℝ
  xgb_rmse : ℝ
  best : Regressor

/-- Embedding of the notebook's regressor-selection cells: split with seed 42
and a 10% held-out fraction, fit both candidates on the fit subset, score both
on the held-out subset by RMSE, and select with `best_model`.  `fitLR` and
`fitXGB` are the (deterministic) library fitting procedures and `predict`
applies a fitted model rowwise. -/
noncomputable def regressor_selector {M : Type} (shuffle : Nat → Nat → List Nat)
    (fitLR fitXGB : List (List ℚ) → List ℚ → M)
    (predict : M → List (List ℚ) → List ℚ)
    (encoded_train_x : List (List ℚ)) (train_y : List ℚ) : SelectorRun M :=
  let s := train_test_split shuffle 42 (fun n => (n + 9) / 10) encoded_train_x train_y
  let lr := fitLR s.1 s.2.2.1
  let xgb := fitXGB s.1 s.2.2.1
  let lrScore := rmse s.2.2.2 (predict lr s.2.1)
  let xgbScore := rmse s.2.2.2 (predict xgb s.2.1)
  ⟨s.1, s.2.1, s.2.2.1, s.2.2.2, lrScore, xgbScore, best_model lrScore xgbScore⟩

/-! ## Inference pipeline

`encoded_test_x = encoder.predict(test_x_conjoint)` followed by
`best_model.predict(encoded_test_x)`: fingerprint the descriptors (failing the
whole batch on a malformed one), extract features with the frozen encoder, and
apply the production regressor to each row. -/

/-- Embedding of the end-to-end inference path: descriptors → fingerprints →
frozen-encoder features → one scalar prediction per row, or a batch-level
failure when any descriptor does not parse. -/
def inference_pipeline {Mol : Type} (parse : String → Option Mol)
    (features : Mol → Nat → List Nat) (keys : Mol → Nat → Bool)
    (w : EncoderWeights) (predictBest : List ℚ → ℚ)
    (smilesArray : List String) : Except FpError (List ℚ) :=
  (convert_smiles_to_fingerprints parse features keys smilesArray).map
    (fun fps => (extract w (fps.map (fun fp => fp.map (fun b => (b : ℚ))))).map predictBest)

/-! ## Helper lemmas -/

/-- The ECFP bit vector has exactly `nBits` entries. -/
theorem morganFingerprintBits_length {Mol : Type} (features : Mol → Nat → List Nat)
    (radius nBits : Nat) (mol : Mol) :
    (morganFingerprintBits features radius nBits mol).length = nBits := by
  simp [morganFingerprintBits]

/-- The MACCS key bit vector has exactly 167 entries. -/
theorem maccsKeysBits_length {Mol : Type} (keys : Mol → Nat → Bool) (mol : Mol) :
    (maccsKeysBits keys mol).length = 167 := by
  simp [maccsKeysBits]

/-- A malformed descriptor anywhere in the batch fails the whole
`convert_smiles_to_fingerprints` call. -/
theorem convert_smiles_malformed {Mol : Type} (parse : String → Option Mol)
    (features : Mol → Nat → List Nat) (keys : Mol → Nat → Bool)
    (l : List String) (s : String) (hs : s ∈ l) (hbad : parse s = none) :
    convert_smiles_to_fingerprints parse features keys l = .error .malformedInput := by
  induction l with
  | nil => cases hs
  | cons a l ih =>
    rcases List.mem_cons.mp hs with h | h
    · subst h
      have hfa : smiles_to_fp parse features keys s 2 2000 = .error .malformedInput := by
        simp [smiles_to_fp, hbad]
      simp [convert_smiles_to_fingerprints, mapExcept, hfa]
    · cases hfa : smiles_to_fp parse features keys a 2 2000 with
      | error e => cases e; simp [convert_smiles_to_fingerprints, mapExcept, hfa]
      | ok v =>
        have ih' := ih h
        simp only [convert_smiles_to_fingerprints] at ih'
        simp [convert_smiles_to_fingerprints, mapExcept, hfa, ih']

/-- Summing a list divided pointwise by a constant divides the sum. -/
theorem list_sum_map_div (l : List ℚ) (s : ℚ) :
    (l.map (fun t => t / s)).sum = l.sum / s := by
  induction l with
  | nil => simp
  | cons a l ih => simp [ih, add_div]

/-! ## Claim theorems -/

/-- C5: for every successfully encoded descriptor, the resulting fingerprint
has length exactly `n_bits + 167 = 2000 + 167 = 2167`, independent of the
molecule. -/
theorem smiles_to_fp_length_2167 {Mol : Type} (parse : String → Option Mol)
    (features : Mol → Nat → List Nat) (keys : Mol → Nat → Bool)
    (s : String) (fp : List Nat)
    (h : smiles_to_fp parse features keys s 2 2000 = .ok fp) :
    fp.length = 2167 := by
  cases hp : parse s with
  | none => simp [smiles_to_fp, hp] at h
  | some mol =>
    simp only [smiles_to_fp, hp] at h
    cases h
    simp [morganFingerprintBits_length, maccsKeysBits_length]

/-- C5 witness: a concrete parseable descriptor yields a 2167-entry
fingerprint. -/
theorem smiles_to_fp_length_2167_witness :
    (morganFingerprintBits (fun (_ : Unit) _ => [0]) 2 2000 () ++
      maccsKeysBits (fun _ _ => true) ()).length = 2167 :=
  smiles_to_fp_length_2167 (fun _ => some ()) (fun _ _ => [0]) (fun _ _ => true)
    "C" _ (by rw [smiles_to_fp])

/-- C9: the fingerprint is the ECFP bits first (indices 0 through 1999) and
the MACCS key bits second (indices 2000 through 2166), for every successfully
parsed descriptor. -/
theorem fingerprint_concat_order {Mol : Type} (parse : String → Option Mol)
    (features : Mol → Nat → List Nat) (keys : Mol → Nat → Bool)
    (s : String) (mol : Mol) (fp : List Nat) (hm : parse s = some mol)
    (h : smiles_to_fp parse features keys s 2 2000 = .ok fp) :
    fp.take 2000 = morganFingerprintBits features 2 2000 mol ∧
    fp.drop 2000 = maccsKeysBits keys mol := by
  simp only [smiles_to_fp, hm] at h
  cases h
  constructor
  · exact List.take_left' (morganFingerprintBits_length features 2 2000 mol)
  · exact List.drop_left' (morganFingerprintBits_length features 2 2000 mol)

/-- C9 witness: the concatenation order on a concrete parseable descriptor. -/
theorem fingerprint_concat_order_witness :
    ((morganFingerprintBits (fun (_ : Unit) _ => [0]) 2 2000 () ++
        maccsKeysBits (fun _ _ => true) ()).take 2000 =
      morganFingerprintBits (fun (_ : Unit) _ => [0]) 2 2000 ()) ∧
    ((morganFingerprintBits (fun (_ : Unit) _ => [0]) 2 2000 () ++
        maccsKeysBits (fun _ _ => true) ()).drop 2000 =
      maccsKeysBits (fun (_ : Unit) (_ : Nat) => true) ()) :=
  fingerprint_concat_order (fun _ => some ()) (fun _ _ => [0]) (fun _ _ => true)
    "C" () _ rfl (by rw [smiles_to_fp])

/-- C3: a descriptor that does not parse never yields a fingerprint (so never
a zero vector), and a batch containing it never yields predictions — the
notebook's list comprehension fails the whole batch, so no fabricated
prediction is ever produced for the bad row. -/
theorem malformed_input_never_predicted {Mol : Type} (parse : String → Option Mol)
    (features : Mol → Nat → List Nat) (keys : Mol → Nat → Bool)
    (w : EncoderWeights) (predictBest : List ℚ → ℚ)
    (s : String) (smilesArray : List String) (radius nBits : Nat)
    (hbad : parse s = none) :
    (∀ v : List Nat, smiles_to_fp parse features keys s radius nBits ≠ .ok v) ∧
    (s ∈ smilesArray → ∀ preds : List ℚ,
      inference_pipeline parse features keys w predictBest smilesArray ≠ .ok preds) := by
  constructor
  · intro v hv
    simp [smiles_to_fp, hbad] at hv
  · intro hmem preds hpred
    have hc := convert_smiles_malformed parse features keys smilesArray s hmem hbad
    simp [inference_pipeline, hc, Except.map] at hpred

/-- C3 witness: a 3-descriptor batch with one malformed entry produces no
prediction vector at all (the batch fails), and the malformed entry itself
never encodes. -/
theorem malformed_input_never_predicted_witness :
    (∀ v : List Nat,
      smiles_to_fp (fun t => if t = "bad" then none else some ())
        (fun _ _ => [0]) (fun _ _ => true) "bad" 2 2000 ≠ .ok v) ∧
    (∀ preds : List ℚ,
      inference_pipeline (fun t => if t = "bad" then none else some ())
        (fun _ _ => [0]) (fun _ _ => true)
        ⟨⟨[], []⟩, [], [], ⟨[], []⟩, [], [], ⟨[], []⟩⟩ (fun _ => 0)
        ["a", "bad", "c"] ≠ .ok preds) := by
  have h := malformed_input_never_predicted
    (fun t => if t = "bad" then none else some ())
    (fun _ _ => ([0] : List Nat)) (fun _ _ => true)
    ⟨⟨[], []⟩, [], [], ⟨[], []⟩, [], [], ⟨[], []⟩⟩ (fun _ => (0 : ℚ))
    "bad" ["a", "bad", "c"] 2 2000 (by simp)
  exact ⟨h.1, h.2 (by simp)⟩

/-- C1 counterexample: with `y_val = [0]` and predictions `[1]` and `[-1]` the
two candidates have exactly equal RMSE, yet the notebook's `else` branch
selects XGBoost, not the simpler linear model the claim requires. -/
theorem best_model_tie_prefers_xgb_cex :
    rmse [0] [1] = rmse [0] [-1] ∧
    best_model (rmse [0] [1]) (rmse [0] [-1]) = .xgb ∧
    best_model (rmse [0] [1]) (rmse [0] [-1]) ≠ .lr := by
  have h1 : mean_squared_error [0] [1] = 1 := by
    norm_num [mean_squared_error]
  have h2 : mean_squared_error [0] [-1] = 1 := by
    norm_num [mean_squared_error]
  have heq : rmse [0] [1] = rmse [0] [-1] := by rw [rmse, rmse, h1, h2]
  refine ⟨heq, ?_, ?_⟩ <;> simp [best_model, heq]

/-- C1 (amended): for every pair of candidate RMSE scores on the held-out
subset, a strictly lower linear-model score selects the linear model, and
otherwise — including exact ties — the XGBoost model is selected. -/
theorem best_model_selects_strictly_lower (y p q : List ℚ) :
    (rmse y p < rmse y q → best_model (rmse y p) (rmse y q) = .lr) ∧
    (rmse y q ≤ rmse y p → best_model (rmse y p) (rmse y q) = .xgb) := by
  constructor
  · intro h
    simp [best_model, h]
  · intro h
    simp [best_model, not_lt.mpr h]

/-- C1 witness: concrete score pairs exercising both branches of the amended
selection policy. -/
theorem best_model_selects_strictly_lower_witness :
    best_model (rmse [0] [0]) (rmse [0] [1]) = Regressor.lr ∧
    best_model (rmse [0] [1]) (rmse [0] [0]) = Regressor.xgb := by
  have h0 : mean_squared_error [0] [0] = 0 := by norm_num [mean_squared_error]
  have h1 : mean_squared_error [0] [1] = 1 := by norm_num [mean_squared_error]
  have hlt : rmse [0] [0] < rmse [0] [1] := by
    rw [rmse, rmse, h0, h1]
    norm_num
  exact ⟨(best_model_selects_strictly_lower [0] [0] [1]).1 hlt,
    (best_model_selects_strictly_lower [0] [1] [0]).2 (le_of_lt hlt)⟩

/-- C10: selection is total — exactly one of the two candidates is always
chosen — and whenever the linear score is not strictly lower (including exact
equality) the XGBoost model becomes the production regressor. -/
theorem best_model_total_and_tie_to_xgb (y p q : List ℚ) :
    (best_model (rmse y p) (rmse y q) = Regressor.lr ↔
      ¬ best_model (rmse y p) (rmse y q) = Regressor.xgb) ∧
    (¬ rmse y p < rmse y q → best_model (rmse y p) (rmse y q) = .xgb) ∧
    (rmse y p = rmse y q → best_model (rmse y p) (rmse y q) = .xgb) := by
  refine ⟨?_, ?_, ?_⟩
  · unfold best_model
    by_cases h : rmse y p < rmse y q <;> simp [h]
  · intro h
    simp [best_model, h]
  · intro h
    simp [best_model, h]

/-- C10 witness: an exact tie selects XGBoost and the selection is total
there. -/
theorem best_model_total_and_tie_to_xgb_witness :
    (best_model (rmse [0] [1]) (rmse [0] [1]) = Regressor.lr ↔
      ¬ best_model (rmse [0] [1]) (rmse [0] [1]) = Regressor.xgb) ∧
    best_model (rmse [0] [1]) (rmse [0] [1]) = Regressor.xgb :=
  ⟨(best_model_total_and_tie_to_xgb [0] [1] [1]).1,
    (best_model_total_and_tie_to_xgb [0] [1] [1]).2.2 rfl⟩

/-- C4: the regressor selector is deterministic — two runs given the same
seeded shuffle, the same deterministic fitting procedures, and the same
features and labels produce the same fit/validation split, the same two RMSE
scores, and the same selected model. -/
theorem regressor_selector_deterministic {M : Type}
    (shuffle₁ shuffle₂ : Nat → Nat → List Nat)
    (fitLR₁ fitLR₂ fitXGB₁ fitXGB₂ : List (List ℚ) → List ℚ → M)
    (predict₁ predict₂ : M → List (List ℚ) → List ℚ)
    (X₁ X₂ : List (List ℚ)) (y₁ y₂ : List ℚ)
    (hs : shuffle₁ = shuffle₂) (hlr : fitLR₁ = fitLR₂) (hxgb : fitXGB₁ = fitXGB₂)
    (hp : predict₁ = predict₂) (hX : X₁ = X₂) (hy : y₁ = y₂) :
    ((regressor_selector shuffle₁ fitLR₁ fitXGB₁ predict₁ X₁ y₁).x_fit =
        (regressor_selector shuffle₂ fitLR₂ fitXGB₂ predict₂ X₂ y₂).x_fit ∧
      (regressor_selector shuffle₁ fitLR₁ fitXGB₁ predict₁ X₁ y₁).x_val =
        (regressor_selector shuffle₂ fitLR₂ fitXGB₂ predict₂ X₂ y₂).x_val ∧
      (regressor_selector shuffle₁ fitLR₁ fitXGB₁ predict₁ X₁ y₁).y_fit =
        (regressor_selector shuffle₂ fitLR₂ fitXGB₂ predict₂ X₂ y₂).y_fit ∧
      (regressor_selector shuffle₁ fitLR₁ fitXGB₁ predict₁ X₁ y₁).y_val =
        (regressor_selector shuffle₂ fitLR₂ fitXGB₂ predict₂ X₂ y₂).y_val) ∧
    ((regressor_selector shuffle₁ fitLR₁ fitXGB₁ predict₁ X₁ y₁).lr_rmse =
        (regressor_selector shuffle₂ fitLR₂ fitXGB₂ predict₂ X₂ y₂).lr_rmse ∧
      (regressor_selector shuffle₁ fitLR₁ fitXGB₁ predict₁ X₁ y₁).xgb_rmse =
        (regressor_selector shuffle₂ fitLR₂ fitXGB₂ predict₂ X₂ y₂).xgb_rmse) ∧
    (regressor_selector shuffle₁ fitLR₁ fitXGB₁ predict₁ X₁ y₁).best =
      (regressor_selector shuffle₂ fitLR₂ fitXGB₂ predict₂ X₂ y₂).best := by
  subst hs hlr hxgb hp hX hy
  exact ⟨⟨rfl, rfl, rfl, rfl⟩, ⟨rfl, rfl⟩, rfl⟩

/-- C4 witness: two identical concrete selector runs agree on split, scores,
and selection. -/
theorem regressor_selector_deterministic_witness :
    ((regressor_selector (fun _ n => List.range n) (fun _ _ => ()) (fun _ _ => ())
          (fun _ xs => xs.map (fun _ => 0)) [[1], [2]] [1, 2]).x_fit =
        (regressor_selector (fun _ n => List.range n) (fun _ _ => ()) (fun _ _ => ())
          (fun _ xs => xs.map (fun _ => 0)) [[1], [2]] [1, 2]).x_fit ∧
      (regressor_selector (fun _ n => List.range n) (fun _ _ => ()) (fun _ _ => ())
          (fun _ xs => xs.map (fun _ => 0)) [[1], [2]] [1, 2]).x_val =
        (regressor_selector (fun _ n => List.range n) (fun _ _ => ()) (fun _ _ => ())
          (fun _ xs => xs.map (fun _ => 0)) [[1], [2]] [1, 2]).x_val ∧
      (regressor_selector (fun _ n => List.range n) (fun _ _ => ()) (fun _ _ => ())
          (fun _ xs => xs.map (fun _ => 0)) [[1], [2]] [1, 2]).y_fit =
        (regressor_selector (fun _ n => List.range n) (fun _ _ => ()) (fun _ _ => ())
          (fun _ xs => xs.map (fun _ => 0)) [[1], [2]] [1, 2]).y_fit ∧
      (regressor_selector (fun _ n => List.range n) (fun _ _ => ()) (fun _ _ => ())
          (fun _ xs => xs.map (fun _ => 0)) [[1], [2]] [1, 2]).y_val =
        (regressor_selector (fun _ n => List.range n) (fun _ _ => ()) (fun _ _ => ())
          (fun _ xs => xs.map (fun _ => 0)) [[1], [2]] [1, 2]).y_val) ∧
    ((regressor_selector (fun _ n => List.range n) (fun _ _ => ()) (fun _ _ => ())
          (fun _ xs => xs.map (fun _ => 0)) [[1], [2]] [1, 2]).lr_rmse =
        (regressor_selector (fun _ n => List.range n) (fun _ _ => ()) (fun _ _ => ())
          (fun _ xs => xs.map (fun _ => 0)) [[1], [2]] [1, 2]).lr_rmse ∧
      (regressor_selector (fun _ n => List.range n) (fun _ _ => ()) (fun _ _ => ())
          (fun _ xs => xs.map (fun _ => 0)) [[1], [2]] [1, 2]).xgb_rmse =
        (regressor_selector (fun _ n => List.range n) (fun _ _ => ()) (fun _ _ => ())
          (fun _ xs => xs.map (fun _ => 0)) [[1], [2]] [1, 2]).xgb_rmse) ∧
    (regressor_selector (fun _ n => List.range n) (fun _ _ => ()) (fun _ _ => ())
        (fun _ xs => xs.map (fun _ => 0)) [[1], [2]] [1, 2]).best =
      (regressor_selector (fun _ n => List.range n) (fun _ _ => ()) (fun _ _ => ())
        (fun _ xs => xs.map (fun _ => 0)) [[1], [2]] [1, 2]).best :=
  regressor_selector_deterministic _ _ _ _ _ _ _ _ _ _ _ _
    rfl rfl rfl rfl rfl rfl

/-- C6: the encoder maps a 2167-wide input to a 2167-wide output — output
width equals input width — whatever the width of the internal hidden layer. -/
theorem encoder_output_width_eq_input_width (hidden : Nat) (w : EncoderWeights)
    (hw : EncoderShaped hidden w) (x : List ℚ) (hx : x.length = 2167) :
    (encoderForward w x).length = 2167 ∧
    (encoderForward w x).length = x.length := by
  obtain ⟨-, -, -, -, h5, h6⟩ := hw
  constructor
  · simp [encoderForward, denseApply, h5, h6]
  · simp [encoderForward, denseApply, h5, h6, hx]

/-- C6 witness: a concrete encoder (hidden width 1) on a concrete 2167-wide
input. -/
theorem encoder_output_width_eq_input_width_witness :
    let w : EncoderWeights :=
      ⟨⟨List.replicate 2167 [], List.replicate 2167 0⟩, [], [],
        ⟨[[1]], [0]⟩, [], [],
        ⟨List.replicate 2167 [], List.replicate 2167 0⟩⟩
    (encoderForward w (List.replicate 2167 0)).length = 2167 ∧
    (encoderForward w (List.replicate 2167 0)).length =
      (List.replicate 2167 (0 : ℚ)).length :=
  encoder_output_width_eq_input_width 1 _
    (by constructor <;> simp [EncoderShaped]) _ (by simp)

/-- C7: whatever the (possibly untrained) weights and the real-valued input,
the decoder's output is a probability distribution: every entry is
non-negative and the entries sum to exactly 1. -/
theorem decoder_output_prob_dist (e : ℚ → ℚ) (he : ∀ t, 0 < e t)
    (w : DecoderWeights) (hw : DecoderShaped w) (x : List ℚ) :
    (∀ v ∈ decoderForward e w x, 0 ≤ v) ∧ (decoderForward e w x).sum = 1 := by
  obtain ⟨-, -, h3, h4⟩ := hw
  set z := denseApply w.d2 (dropoutApply (leakyReluApply (1 / 100)
    (batchNormApply w.bn1scale w.bn1shift (denseApply w.d1 x)))) with hz
  have hzlen : z.length = 2167 := by
    simp [hz, denseApply, h3, h4]
  have hzne : z.map e ≠ [] := by
    intro hcon
    have := congrArg List.length hcon
    simp [hzlen] at this
  have hpos : 0 < (z.map e).sum := by
    apply List.sum_pos
    · intro t ht
      rcases List.mem_map.mp ht with ⟨u, -, rfl⟩
      exact he u
    · exact hzne
  have hfw : decoderForward e w x = (z.map e).map (fun t => t / (z.map e).sum) := by
    rw [decoderForward, softmax]
  constructor
  · intro v hv
    rw [hfw] at hv
    rcases List.mem_map.mp hv with ⟨t, ht, rfl⟩
    rcases List.mem_map.mp ht with ⟨u, -, rfl⟩
    exact div_nonneg (le_of_lt (he u)) (le_of_lt hpos)
  · rw [hfw, list_sum_map_div]
    exact div_self (ne_of_gt hpos)

/-- C7 witness: a concrete freshly initialized decoder (all-zero weights) on a
concrete input produces a probability vector. -/
theorem decoder_output_prob_dist_witness :
    let w : DecoderWeights :=
      ⟨⟨List.replicate 2000 [], List.replicate 2000 0⟩, [], [],
        ⟨List.replicate 2167 [], List.replicate 2167 0⟩⟩
    (∀ v ∈ decoderForward (fun _ => 1) w [], 0 ≤ v) ∧
    (decoderForward (fun _ => 1) w []).sum = 1 :=
  decoder_output_prob_dist (fun _ => 1) (fun _ => one_pos) _
    (by constructor <;> simp [DecoderShaped]) []

/-- C8: feature extraction is rowwise, order-preserving, and free of cross-row
interaction: the latent vector at position `i` of a batch equals the frozen
encoder applied to that row alone, and equals position 0 of extracting the
singleton batch of that row. -/
theorem extract_rowwise_order_preserving (w : EncoderWeights)
    (fps : List (List ℚ)) (i : Nat) (h : i < fps.length) :
    (extract w fps).get ⟨i, by simpa [extract] using h⟩ =
      encoderForward w (fps.get ⟨i, h⟩) ∧
    (extract w fps).get ⟨i, by simpa [extract] using h⟩ =
      (extract w [fps.get ⟨i, h⟩]).get ⟨0, by simp [extract]⟩ := by
  constructor <;> simp [extract]

/-- C8 witness: `extract([a,b,c])[1] = extract([b])[0]` on a concrete batch
and encoder. -/
theorem extract_rowwise_order_preserving_witness :
    let w : EncoderWeights := ⟨⟨[], []⟩, [], [], ⟨[], []⟩, [], [], ⟨[], []⟩⟩
    (extract w [[1], [2], [3]]).get ⟨1, by simp [extract]⟩ =
      encoderForward w [2] ∧
    (extract w [[1], [2], [3]]).get ⟨1, by simp [extract]⟩ =
      (extract w [[2]]).get ⟨0, by simp [extract]⟩ :=
  extract_rowwise_order_preserving _ [[1], [2], [3]] 1 (by simp)

/-- Before any epoch has been observed, any monitored value counts as an
improvement. -/
theorem esImproves_none (v : ℚ) : esImproves none v = true := rfl

/-- Against a recorded best, improvement means a strictly smaller value. -/
theorem esImproves_some (b v : ℚ) : esImproves (some b) v = decide (v < b) := rfl

/-- Invariant of the early-stopping state machine on runs that stop early:
the final best value bounds every observed monitored value from below, the
final best snapshot either is the initial one or comes from an observed epoch,
the best value never increases, and a stopped run has a recorded best. -/
theorem earlyStoppingRun_stop_invariant {W : Type} (patience : Nat)
    (l : List (W × ℚ)) :
    ∀ (s s' : ESState W) (n : Nat),
      earlyStoppingRun patience s l = (s', true, n) →
      (∀ p ∈ l.take n, ∀ b, s'.best = some b → b ≤ p.2) ∧
      ((s'.best = s.best ∧ s'.bestWeights = s.bestWeights) ∨
        ∃ p ∈ l.take n, s'.best = some p.2 ∧ s'.bestWeights = some p.1) ∧
      (∀ b b', s.best = some b → s'.best = some b' → b' ≤ b) ∧
      (∃ b, s'.best = some b) := by
  induction l with
  | nil =>
    intro s s' n h
    rw [earlyStoppingRun] at h
    simp at h
  | cons hd rest ih =>
    intro s s' n h
    obtain ⟨w, v⟩ := hd
    rw [earlyStoppingRun] at h
    cases himp : esImproves s.best v with
    | true =>
      simp only [himp, if_true] at h
      cases hr : earlyStoppingRun patience ⟨some v, some w, 0⟩ rest with
      | mk rs rp =>
        obtain ⟨rb, rn⟩ := rp
        rw [hr] at h
        simp only [Prod.mk.injEq] at h
        obtain ⟨hrs, hrb, hrn⟩ := h
        subst hrn
        rw [hrs, hrb] at hr
        obtain ⟨ih1, ih2, ih3, ih4⟩ := ih ⟨some v, some w, 0⟩ s' rn hr
        obtain ⟨b', hb'⟩ := ih4
        have hb'v : b' ≤ v := ih3 v b' rfl hb'
        refine ⟨?_, ?_, ?_, ⟨b', hb'⟩⟩
        · intro p hp b hb
          rw [List.take_succ_cons] at hp
          rcases List.mem_cons.mp hp with hph | hpt
          · subst hph
            have hbb : b = b' := by rw [hb'] at hb; exact (Option.some.injEq ..).mp hb.symm
            subst hbb
            exact hb'v
          · exact ih1 p hpt b hb
        · rcases ih2 with ⟨hbe, hwe⟩ | ⟨p, hp, hpb, hpw⟩
          · exact Or.inr ⟨(w, v), by simp [List.take_succ_cons], by simpa using hbe,
              by simpa using hwe⟩
          · exact Or.inr ⟨p, by rw [List.take_succ_cons]; exact List.mem_cons_of_mem _ hp,
              hpb, hpw⟩
        · intro b b'' hsb hs'b
          have hvb : v < b := by
            rw [hsb, esImproves_some] at himp
            exact of_decide_eq_true himp
          have hbb : b'' = b' := by rw [hb'] at hs'b; exact (Option.some.injEq ..).mp hs'b.symm
          subst hbb
          exact le_of_lt (lt_of_le_of_lt hb'v hvb)
    | false =>
      simp only [himp, Bool.false_eq_true, if_false] at h
      have hbs : ∃ b0, s.best = some b0 := by
        cases hsb : s.best with
        | none => rw [hsb, esImproves_none] at himp; cases himp
        | some b0 => exact ⟨b0, rfl⟩
      obtain ⟨b0, hb0⟩ := hbs
      have hb0v : b0 ≤ v := by
        rw [hb0, esImproves_some] at himp
        exact not_lt.mp (of_decide_eq_false himp)
      by_cases hpat : patience ≤ s.wait + 1
      · rw [if_pos hpat] at h
        simp only [Prod.mk.injEq] at h
        obtain ⟨hs', -, hn⟩ := h
        subst hn
        have hbb : s'.best = some b0 := by rw [← hs']; exact hb0
        have hww : s'.bestWeights = s.bestWeights := by rw [← hs']
        refine ⟨?_, Or.inl ⟨by rw [← hs'], hww⟩, ?_, ⟨b0, hbb⟩⟩
        · intro p hp b hb
          rw [List.take_succ_cons, List.take_zero] at hp
          rcases List.mem_cons.mp hp with hph | hpt
          · subst hph
            have : b = b0 := by rw [hbb] at hb; exact (Option.some.injEq ..).mp hb.symm
            subst this
            exact hb0v
          · cases hpt
        · intro b b'' hsb hs'b
          have h1 : b0 = b := (Option.some.injEq ..).mp (hb0 ▸ hsb)
          have h2 : b'' = b0 := by rw [hbb] at hs'b; exact (Option.some.injEq ..).mp hs'b.symm
          subst h2
          exact le_of_eq h1
      · rw [if_neg hpat] at h
        cases hr : earlyStoppingRun patience ⟨s.best, s.bestWeights, s.wait + 1⟩ rest with
        | mk rs rp =>
          obtain ⟨rb, rn⟩ := rp
          rw [hr] at h
          simp only [Prod.mk.injEq] at h
          obtain ⟨hrs, hrb, hrn⟩ := h
          subst hrn
          rw [hrs, hrb] at hr
          obtain ⟨ih1, ih2, ih3, ih4⟩ := ih ⟨s.best, s.bestWeights, s.wait + 1⟩ s' rn hr
          obtain ⟨b', hb'⟩ := ih4
          have hb'b0 : b' ≤ b0 := ih3 b0 b' hb0 hb'
          refine ⟨?_, ?_, ?_, ⟨b', hb'⟩⟩
          · intro p hp b hb
            rw [List.take_succ_cons] at hp
            rcases List.mem_cons.mp hp with hph | hpt
            · subst hph
              have hbb : b = b' := by rw [hb'] at hb; exact (Option.some.injEq ..).mp hb.symm
              subst hbb
              exact le_trans hb'b0 hb0v
            · exact ih1 p hpt b hb
          · rcases ih2 with ⟨hbe, hwe⟩ | ⟨p, hp, hpb, hpw⟩
            · exact Or.inl ⟨hbe, hwe⟩
            · exact Or.inr ⟨p, by rw [List.take_succ_cons]; exact List.mem_cons_of_mem _ hp,
                hpb, hpw⟩
          · intro b b'' hsb hs'b
            exact ih3 b b'' hsb hs'b

/-- C2: when training terminates by early stopping, the restored snapshot is
the one recorded at the best-observed epoch: it comes from an observed epoch,
and its monitored validation error is less than or equal to the validation
error of every epoch observed before termination — in particular every later
one; the final epoch's weights are kept only if they are the best. -/
theorem early_stopping_restores_best {W : Type} (w0 : W)
    (epochs : List (W × ℚ)) (s' : ESState W) (n : Nat)
    (h : earlyStoppingRun 20 ⟨none, none, 0⟩ epochs = (s', true, n)) :
    ∃ p ∈ epochs.take n, modelFitWeights 20 w0 epochs = p.1 ∧
      s'.best = some p.2 ∧ ∀ q ∈ epochs.take n, p.2 ≤ q.2 := by
  obtain ⟨h1, h2, -, h4⟩ := earlyStoppingRun_stop_invariant 20 epochs ⟨none, none, 0⟩ s' n h
  rcases h2 with ⟨hbe, -⟩ | ⟨p, hp, hpb, hpw⟩
  · obtain ⟨b, hb⟩ := h4
    rw [hbe] at hb
    cases hb
  · refine ⟨p, hp, ?_, hpb, ?_⟩
    · rw [modelFitWeights, h]
      simp [hpw]
    · intro q hq
      exact h1 q hq p.2 hpb

/-- C2 witness: a run that improves once then stalls for 20 epochs stops early
and restores the first epoch's snapshot, whose error bounds all observed
errors. -/
theorem early_stopping_restores_best_witness :
    ∃ p ∈ (((0 : Nat), (1 : ℚ)) :: List.replicate 20 ((1 : Nat), (2 : ℚ))).take 21,
      modelFitWeights 20 7 (((0 : Nat), (1 : ℚ)) :: List.replicate 20 ((1 : Nat), (2 : ℚ))) = p.1 ∧
      (ESState.mk (some 1) (some 0) 20).best = some p.2 ∧
      ∀ q ∈ (((0 : Nat), (1 : ℚ)) :: List.replicate 20 ((1 : Nat), (2 : ℚ))).take 21,
        p.2 ≤ q.2 :=
  early_stopping_restores_best 7
    (((0 : Nat), (1 : ℚ)) :: List.replicate 20 ((1 : Nat), (2 : ℚ)))
    ⟨some 1, some 0, 20⟩ 21 (by decide)

end MoleculeML
